import Mathlib

set_option maxHeartbeats 1000000

namespace GoalsMonitor

/-! Shallow embedding of `ops/monitor/goals_monitor.py`.

The daemon keeps an alert state dictionary
`{last_alert_status, consecutive_failures, consecutive_successes, last_summary_date}`,
updates it once per scheduler tick from the boolean "both endpoints UP", and fires
a Telegram alert on the falling edge (3rd consecutive failure while status is "UP")
and a recovery notice on the recovery edge (3rd consecutive success while status is
"DOWN"). -/

/-- Alert state persisted to `state.json` (see `load_state`, lines 137-149).
Counters are natural numbers; the status fields are the literal strings the code
stores ("UP" / "DOWN"). -/
structure AlertState where
  last_alert_status : String
  consecutive_failures : Nat
  consecutive_successes : Nat
  last_summary_date : String
deriving DecidableEq

/-- Default state returned by `load_state` when the file is absent or corrupt. -/
def initState : AlertState :=
  { last_alert_status := "UP"
    consecutive_failures := 0
    consecutive_successes := 0
    last_summary_date := "" }

/-- Alerted ("DOWN") state with fresh counters, used for recovery-side runs. -/
def downState : AlertState :=
  { last_alert_status := "DOWN"
    consecutive_failures := 0
    consecutive_successes := 0
    last_summary_date := "" }

/-- Notifications the alert logic can send during one tick. -/
inductive TickAlert where
  | downAlert
  | recoveryNotice
deriving DecidableEq

/-- One scheduler-tick update of the alert state (main loop, lines 277-299):
update the consecutive counters from `is_currently_up`, then run the falling-edge
check and the recovery-edge check in that order.  Returns the new state together
with the list of alerts sent on this tick. -/
def tick (state : AlertState) (is_currently_up : Bool) : AlertState × List TickAlert :=
  let s1 :=
    if !is_currently_up then
      { state with consecutive_failures := state.consecutive_failures + 1
                   consecutive_successes := 0 }
    else
      { state with consecutive_successes := state.consecutive_successes + 1
                   consecutive_failures := 0 }
  let s2 :=
    if s1.consecutive_failures = 3 ∧ s1.last_alert_status = "UP" then
      { s1 with last_alert_status := "DOWN" }
    else s1
  let a2 : List TickAlert :=
    if s1.consecutive_failures = 3 ∧ s1.last_alert_status = "UP" then
      [TickAlert.downAlert]
    else []
  let s3 :=
    if s2.consecutive_successes = 3 ∧ s2.last_alert_status = "DOWN" then
      { s2 with last_alert_status := "UP" }
    else s2
  let a3 : List TickAlert :=
    if s2.consecutive_successes = 3 ∧ s2.last_alert_status = "DOWN" then
      [TickAlert.recoveryNotice]
    else []
  (s3, a2 ++ a3)

/-- Run a sequence of ticks, recording each tick's resulting state and alerts. -/
def runTicks (state : AlertState) : List Bool → List (AlertState × List TickAlert)
  | [] => []
  | u :: us =>
    let r := tick state u
    r :: runTicks r.1 us

/-- State after feeding a whole tick sequence. -/
def stateAfter (state : AlertState) (ups : List Bool) : AlertState :=
  ups.foldl (fun s u => (tick s u).1) state

/-- State reached just before tick `t` of the sequence `seq`, starting from `initState`. -/
def beforeState (seq : List Bool) (t : Nat) : AlertState :=
  stateAfter initState (seq.take t)

lemma mem_tick_down (st : AlertState) (up : Bool) :
    TickAlert.downAlert ∈ (tick st up).2 ↔
      up = false ∧ st.consecutive_failures = 2 ∧ st.last_alert_status = "UP" := by
  cases up <;> simp only [tick] <;> split_ifs <;> simp_all

lemma mem_tick_recovery (st : AlertState) (up : Bool) :
    TickAlert.recoveryNotice ∈ (tick st up).2 ↔
      up = true ∧ st.consecutive_successes = 2 ∧ st.last_alert_status = "DOWN" := by
  cases up <;> simp only [tick] <;> split_ifs <;> simp_all

lemma tick_down_status (st : AlertState) (h1 : st.consecutive_failures = 2)
    (h2 : st.last_alert_status = "UP") :
    (tick st false).1.last_alert_status = "DOWN" := by
  simp only [tick]; split_ifs <;> simp_all

lemma tick_recovery_status (st : AlertState) (h1 : st.consecutive_successes = 2)
    (h2 : st.last_alert_status = "DOWN") :
    (tick st true).1.last_alert_status = "UP" := by
  simp only [tick]; split_ifs <;> simp_all

lemma tick_up_failures (st : AlertState) :
    (tick st true).1.consecutive_failures = 0 := by
  simp only [tick]; split_ifs <;> simp_all

/-- C1 (amended): over every tick sequence from the default state, a DOWN alert fires
at tick `t` exactly when the tick is a failure that brings `consecutive_failures` to 3
(i.e. the prior count is 2) while `last_alert_status` is still "UP"; such a tick sets
the status to "DOWN"; a 4th or later consecutive failure fires no additional alert;
an up tick resets `consecutive_failures` to 0; and the run fail, fail, success, fail,
fail, fail alerts only on its final tick. -/
theorem spec2_C1 (seq : List Bool) (t : Nat) (h : t < seq.length) :
    (TickAlert.downAlert ∈ (tick (beforeState seq t) (seq.get ⟨t, h⟩)).2 ↔
      seq.get ⟨t, h⟩ = false ∧ (beforeState seq t).consecutive_failures = 2 ∧
        (beforeState seq t).last_alert_status = "UP") ∧
    ((beforeState seq t).consecutive_failures = 2 ∧
        (beforeState seq t).last_alert_status = "UP" →
      (tick (beforeState seq t) false).1.last_alert_status = "DOWN") ∧
    (3 ≤ (beforeState seq t).consecutive_failures →
      TickAlert.downAlert ∉ (tick (beforeState seq t) (seq.get ⟨t, h⟩)).2) ∧
    (tick (beforeState seq t) true).1.consecutive_failures = 0 ∧
    (runTicks initState [false, false, true, false, false, false]).map Prod.snd =
      [[], [], [], [], [], [TickAlert.downAlert]] := by
  refine ⟨mem_tick_down _ _, fun hc => tick_down_status _ hc.1 hc.2, fun h3 => ?_,
    tick_up_failures _, by decide⟩
  rw [mem_tick_down]
  rintro ⟨-, h2, -⟩
  omega

/-- Witness for C1 at the concrete sequence fail, fail, fail (tick index 2). -/
theorem spec2_C1_witness :
    2 < ([false, false, false] : List Bool).length ∧
    ((TickAlert.downAlert ∈
        (tick (beforeState [false, false, false] 2)
          (([false, false, false] : List Bool).get ⟨2, by decide⟩)).2 ↔
      ([false, false, false] : List Bool).get ⟨2, by decide⟩ = false ∧
        (beforeState [false, false, false] 2).consecutive_failures = 2 ∧
        (beforeState [false, false, false] 2).last_alert_status = "UP") ∧
    ((beforeState [false, false, false] 2).consecutive_failures = 2 ∧
        (beforeState [false, false, false] 2).last_alert_status = "UP" →
      (tick (beforeState [false, false, false] 2) false).1.last_alert_status = "DOWN") ∧
    (3 ≤ (beforeState [false, false, false] 2).consecutive_failures →
      TickAlert.downAlert ∉
        (tick (beforeState [false, false, false] 2)
          (([false, false, false] : List Bool).get ⟨2, by decide⟩)).2) ∧
    (tick (beforeState [false, false, false] 2) true).1.consecutive_failures = 0 ∧
    (runTicks initState [false, false, true, false, false, false]).map Prod.snd =
      [[], [], [], [], [], [TickAlert.downAlert]]) :=
  ⟨by decide, spec2_C1 [false, false, false] 2 (by decide)⟩

/-- Counterexample to C1 as stated: starting from the default state, after the run
fail, fail, fail, success, fail, fail the next failing tick brings
`consecutive_failures` to 3 again, yet no alert fires on it (the status is already
"DOWN"), so the alert does not fire on every tick where the counter becomes 3. -/
theorem spec2_C1_counterexample :
    (beforeState [false, false, false, true, false, false, false] 6).consecutive_failures
        = 2 ∧
    (tick (beforeState [false, false, false, true, false, false, false] 6)
        false).1.consecutive_failures = 3 ∧
    (tick (beforeState [false, false, false, true, false, false, false] 6)
        false).2 = [] := by
  decide

/-- C2 (amended): a recovery notice fires at a tick exactly when the tick is a success
that brings `consecutive_successes` to 3 (prior count 2) while `last_alert_status` is
still "DOWN", and such a tick sets the status to "UP"; the run success, success,
failure from the "DOWN" default-counter state fires no recovery notice and leaves the
status "DOWN". -/
theorem spec2_C2 (seq : List Bool) (t : Nat) (h : t < seq.length) :
    (TickAlert.recoveryNotice ∈
        (tick (stateAfter downState (seq.take t)) (seq.get ⟨t, h⟩)).2 ↔
      seq.get ⟨t, h⟩ = true ∧
        (stateAfter downState (seq.take t)).consecutive_successes = 2 ∧
        (stateAfter downState (seq.take t)).last_alert_status = "DOWN") ∧
    ((stateAfter downState (seq.take t)).consecutive_successes = 2 ∧
        (stateAfter downState (seq.take t)).last_alert_status = "DOWN" →
      (tick (stateAfter downState (seq.take t)) true).1.last_alert_status = "UP") ∧
    (stateAfter downState [true, true, false]).last_alert_status = "DOWN" ∧
    (runTicks downState [true, true, false]).map Prod.snd = [[], [], []] := by
  exact ⟨mem_tick_recovery _ _, fun hc => tick_recovery_status _ hc.1 hc.2,
    by decide, by decide⟩

/-- Witness for C2 at the concrete sequence success, success, success (tick index 2). -/
theorem spec2_C2_witness :
    2 < ([true, true, true] : List Bool).length ∧
    ((TickAlert.recoveryNotice ∈
        (tick (stateAfter downState (([true, true, true] : List Bool).take 2))
          (([true, true, true] : List Bool).get ⟨2, by decide⟩)).2 ↔
      ([true, true, true] : List Bool).get ⟨2, by decide⟩ = true ∧
        (stateAfter downState
          (([true, true, true] : List Bool).take 2)).consecutive_successes = 2 ∧
        (stateAfter downState
          (([true, true, true] : List Bool).take 2)).last_alert_status = "DOWN") ∧
    ((stateAfter downState
          (([true, true, true] : List Bool).take 2)).consecutive_successes = 2 ∧
        (stateAfter downState
          (([true, true, true] : List Bool).take 2)).last_alert_status = "DOWN" →
      (tick (stateAfter downState (([true, true, true] : List Bool).take 2))
          true).1.last_alert_status = "UP") ∧
    (stateAfter downState [true, true, false]).last_alert_status = "DOWN" ∧
    (runTicks downState [true, true, false]).map Prod.snd = [[], [], []]) :=
  ⟨by decide, spec2_C2 [true, true, true] 2 (by decide)⟩

/-- Counterexample to C2 as stated: from the "DOWN" state, after the run success,
success, success, failure, success, success the next successful tick brings
`consecutive_successes` to 3 again, yet no recovery notice fires on it (the status
is already back to "UP"). -/
theorem spec2_C2_counterexample :
    (stateAfter downState
        (([true, true, true, false, true, true, true] : List Bool).take 6)).consecutive_successes
        = 2 ∧
    (tick (stateAfter downState
        (([true, true, true, false, true, true, true] : List Bool).take 6))
        true).1.consecutive_successes = 3 ∧
    (tick (stateAfter downState
        (([true, true, true, false, true, true, true] : List Bool).take 6))
        true).2 = [] := by
  decide

/-- C8: after any single tick update, `consecutive_failures` and
`consecutive_successes` are never both nonzero (one of them is reset to 0 on every
tick, and the edge checks never change the counters). -/
theorem spec2_C8 (st : AlertState) (up : Bool) :
    (tick st up).1.consecutive_failures = 0 ∨ (tick st up).1.consecutive_successes = 0 := by
  cases up <;> simp only [tick] <;> split_ifs <;> simp_all

/-! Sample store: `samples.jsonl` holds one JSON record per line.  `prune_samples`
(lines 238-252) streams the file, re-emits each line whose record parses and whose
`resources.timestamp` date (first 10 characters) compares `>=` the cutoff string,
drops everything else, and atomically replaces the file. -/

/-- One line of the samples file as `prune_samples` sees it: either a record whose
`resources.timestamp` the code can read (the stored line text is kept verbatim in
`payload`), or a line on which `json.loads`/key access raises. -/
inductive StoreLine where
  | sample (timestamp : String) (payload : String)
  | malformed (raw : String)
deriving DecidableEq

/-- Python slicing `s[:10]`: the first 10 characters (code points). -/
def take10 (s : String) : String := String.mk (s.data.take 10)

/-- Python `<` on str values: lexicographic comparison of code points. -/
def strLt : List Char → List Char → Bool
  | [], [] => false
  | [], _ :: _ => true
  | _ :: _, [] => false
  | a :: as, b :: bs => if a < b then true else if b < a then false else strLt as bs

/-- Python `s >= t` on str values. -/
def strGe (s t : String) : Bool := !(strLt s.data t.data)

/-- Model of `prune_samples` (lines 238-252), with the cutoff date string
(`today - RETENTION_DAYS` rendered as `YYYY-MM-DD`) as a parameter: keep exactly the
well-formed lines whose timestamp date is `>=` the cutoff, verbatim and in order;
lines that raise are skipped. -/
def prune_samples (cutoff : String) : List StoreLine → List StoreLine
  | [] => []
  | StoreLine.sample ts payload :: rest =>
    if strGe (take10 ts) cutoff then
      StoreLine.sample ts payload :: prune_samples cutoff rest
    else
      prune_samples cutoff rest
  | StoreLine.malformed _ :: rest => prune_samples cutoff rest

/-- Retention predicate of `prune_samples`: a line survives exactly when it is a
well-formed record dated on or after the cutoff. -/
def keptLine (cutoff : String) : StoreLine → Bool
  | StoreLine.sample ts _ => strGe (take10 ts) cutoff
  | StoreLine.malformed _ => false

/-- Two-digit rendering of a day-of-month / month number. -/
def pad2 (n : Nat) : String := if n < 10 then "0" ++ toString n else toString n

/-- Day `i` of the 41-day window `D-40 .. D` with `D` = 2026-10-12:
indices 0-28 map to 2026-09-02 .. 2026-09-30, indices 29-40 to 2026-10-01 .. 2026-10-12. -/
def c3Date (i : Nat) : String :=
  if i ≤ 28 then "2026-09-" ++ pad2 (2 + i) else "2026-10-" ++ pad2 (i - 28)

/-- Store holding one record per day of the window `D-40 .. D`. -/
def c3Store : List StoreLine :=
  (List.range 41).map (fun i => StoreLine.sample (c3Date i ++ "T00:00:00+00:00") "payload")

lemma prune_samples_eq_filter (cutoff : String) (lines : List StoreLine) :
    prune_samples cutoff lines = lines.filter (keptLine cutoff) := by
  induction lines with
  | nil => rfl
  | cons l rest ih =>
    cases l with
    | sample ts payload =>
      simp only [prune_samples, keptLine, List.filter_cons]
      split_ifs <;> simp_all
    | malformed raw =>
      simp only [prune_samples, keptLine, List.filter_cons]
      simp [ih]

/-- C3: pruning keeps exactly the well-formed lines dated on or after the cutoff
(malformed lines carry no record date and are dropped), the survivors form a sublist
of the original file — same bytes, same order — and on the window `D-40 .. D` with
retention cutoff `D-30` exactly the 31 records dated `D-30 .. D` survive, in order. -/
theorem spec2_C3 :
    (∀ (cutoff : String) (lines : List StoreLine),
      prune_samples cutoff lines = lines.filter (keptLine cutoff)) ∧
    (∀ (cutoff : String) (lines : List StoreLine),
      (prune_samples cutoff lines).Sublist lines) ∧
    prune_samples "2026-09-12" c3Store =
      (List.range 31).map
        (fun i => StoreLine.sample (c3Date (10 + i) ++ "T00:00:00+00:00") "payload") := by
  refine ⟨prune_samples_eq_filter, fun cutoff lines => ?_, by decide⟩
  rw [prune_samples_eq_filter]
  exact List.filter_sublist _

/-! Daily summary scan (`run_daily_summary`, lines 165-236).  The loop body reads one
JSON line at a time inside a try/except: any raising step skips to the next line but
keeps every accumulator mutation already performed for this line.  Each fallible
Python dictionary access is modelled as an `Option` field. -/

/-- One probe object as stored in a sample line; each key access can raise. -/
structure RawProbe where
  status : Option String
  latency_ms : Option ℚ
deriving DecidableEq

/-- Resources object of a sample line; each key access can raise. -/
structure RawResources where
  timestamp : Option String
  mem_percent : Option ℚ
  disk_percent : Option ℚ
deriving DecidableEq

/-- One parsed sample line; the three top-level key accesses can raise. -/
structure RawSample where
  frontend : Option RawProbe
  backend : Option RawProbe
  resources : Option RawResources
deriving DecidableEq

/-- One line of the samples file as the summary scan sees it: a line `json.loads`
accepts, or one it rejects. -/
inductive FileLine where
  | ok (s : RawSample)
  | bad (raw : String)
deriving DecidableEq

/-- Accumulators of the summary scan (lines 172-180). -/
structure SummaryAcc where
  fe_latencies : List ℚ
  be_latencies : List ℚ
  mem_percents : List ℚ
  disk_percents : List ℚ
  total_samples : Nat
  fe_up_count : Nat
  be_up_count : Nat
  both_up_count : Nat
deriving DecidableEq

/-- All-empty accumulators at the start of the scan. -/
def initAcc : SummaryAcc :=
  { fe_latencies := []
    be_latencies := []
    mem_percents := []
    disk_percents := []
    total_samples := 0
    fe_up_count := 0
    be_up_count := 0
    both_up_count := 0 }

/-- Tail of the loop body from `mem_percents.append` on (lines 204-205): either
append raises on the missing key and the line is abandoned, or both resource series
grow. -/
def stepMemDisk (acc : SummaryAcc) (res : RawResources) : SummaryAcc :=
  match res.mem_percent with
  | none => acc
  | some m =>
    let acc := { acc with mem_percents := acc.mem_percents ++ [m] }
    match res.disk_percent with
    | none => acc
    | some d => { acc with disk_percents := acc.disk_percents ++ [d] }

/-- Loop body from the `both_up_count` update on (lines 201-205). -/
def stepBoth (acc : SummaryAcc) (fe_up be_up : Bool) (res : RawResources) : SummaryAcc :=
  let acc :=
    if fe_up && be_up then { acc with both_up_count := acc.both_up_count + 1 } else acc
  stepMemDisk acc res

/-- Loop body from the backend branch on (lines 198-205): the count is bumped before
the latency key is read, so a missing latency abandons the line with the count
already incremented. -/
def stepBe (acc : SummaryAcc) (be : RawProbe) (fe_up be_up : Bool)
    (res : RawResources) : SummaryAcc :=
  if be_up then
    let acc := { acc with be_up_count := acc.be_up_count + 1 }
    match be.latency_ms with
    | none => acc
    | some lat =>
      stepBoth { acc with be_latencies := acc.be_latencies ++ [lat] } fe_up be_up res
  else stepBoth acc fe_up be_up res

/-- Loop body from the frontend branch on (lines 195-205). -/
def stepFe (acc : SummaryAcc) (fe be : RawProbe) (fe_up be_up : Bool)
    (res : RawResources) : SummaryAcc :=
  if fe_up then
    let acc := { acc with fe_up_count := acc.fe_up_count + 1 }
    match fe.latency_ms with
    | none => acc
    | some lat =>
      stepBe { acc with fe_latencies := acc.fe_latencies ++ [lat] } be fe_up be_up res
  else stepBe acc be fe_up be_up res

/-- One iteration of the scan loop (lines 184-207), with the try/except semantics:
a raise anywhere keeps the mutations already made for this line and moves on. -/
def processLine (yesterday : String) (acc : SummaryAcc) (l : FileLine) : SummaryAcc :=
  match l with
  | FileLine.bad _ => acc
  | FileLine.ok s =>
    match s.resources with
    | none => acc
    | some res =>
      match res.timestamp with
      | none => acc
      | some tsFull =>
        if take10 tsFull ≠ yesterday then acc
        else
          let acc := { acc with total_samples := acc.total_samples + 1 }
          match s.frontend with
          | none => acc
          | some fe =>
            match fe.status with
            | none => acc
            | some feStatus =>
              match s.backend with
              | none => acc
              | some be =>
                match be.status with
                | none => acc
                | some beStatus =>
                  stepFe acc fe be (feStatus == "UP") (beStatus == "UP") res

/-- Whole scan of the samples file (absent file = no lines). -/
def scanSamples (yesterday : String) (lines : List FileLine) : SummaryAcc :=
  lines.foldl (processLine yesterday) initAcc

/-- Well-formed probe result (§3 of the spec). -/
structure ProbeResult where
  status : String
  latency_ms : ℚ
deriving DecidableEq

/-- Well-formed resource snapshot (§3 of the spec). -/
structure ResourceSnapshot where
  timestamp : String
  mem_percent : ℚ
  disk_percent : ℚ
deriving DecidableEq

/-- Well-formed sample record (§3 of the spec). -/
structure SampleRecord where
  frontend : ProbeResult
  backend : ProbeResult
  resources : ResourceSnapshot
deriving DecidableEq

/-- Serialization of a well-formed record into the file: every key is present. -/
def SampleRecord.toRaw (r : SampleRecord) : RawSample :=
  { frontend := some { status := some r.frontend.status, latency_ms := some r.frontend.latency_ms }
    backend := some { status := some r.backend.status, latency_ms := some r.backend.latency_ms }
    resources := some { timestamp := some r.resources.timestamp
                        mem_percent := some r.resources.mem_percent
                        disk_percent := some r.resources.disk_percent } }

/-- Records of the store whose resources timestamp has the target date, in original
append order.  Written from the spec's words for the round-trip claim. -/
def matching (yesterday : String) (recs : List SampleRecord) : List SampleRecord :=
  recs.filter (fun r => take10 r.resources.timestamp == yesterday)

/-- Scan result as the spec describes it: every series and count is a selection from
the date-matching subset, in original order. -/
def scanSpec (yesterday : String) (recs : List SampleRecord) : SummaryAcc :=
  { fe_latencies :=
      ((matching yesterday recs).filter (fun r => r.frontend.status == "UP")).map
        (fun r => r.frontend.latency_ms)
    be_latencies :=
      ((matching yesterday recs).filter (fun r => r.backend.status == "UP")).map
        (fun r => r.backend.latency_ms)
    mem_percents := (matching yesterday recs).map (fun r => r.resources.mem_percent)
    disk_percents := (matching yesterday recs).map (fun r => r.resources.disk_percent)
    total_samples := (matching yesterday recs).length
    fe_up_count :=
      ((matching yesterday recs).filter (fun r => r.frontend.status == "UP")).length
    be_up_count :=
      ((matching yesterday recs).filter (fun r => r.backend.status == "UP")).length
    both_up_count :=
      ((matching yesterday recs).filter
        (fun r => r.frontend.status == "UP" && r.backend.status == "UP")).length }

/-- Componentwise combination of two scan results. -/
def accMerge (a b : SummaryAcc) : SummaryAcc :=
  { fe_latencies := a.fe_latencies ++ b.fe_latencies
    be_latencies := a.be_latencies ++ b.be_latencies
    mem_percents := a.mem_percents ++ b.mem_percents
    disk_percents := a.disk_percents ++ b.disk_percents
    total_samples := a.total_samples + b.total_samples
    fe_up_count := a.fe_up_count + b.fe_up_count
    be_up_count := a.be_up_count + b.be_up_count
    both_up_count := a.both_up_count + b.both_up_count }

/-- Payload of a parseable line, if any. -/
def okSample : FileLine → Option RawSample
  | FileLine.ok s => some s
  | FileLine.bad _ => none

lemma accMerge_initAcc_left (b : SummaryAcc) : accMerge initAcc b = b := by
  simp [accMerge, initAcc]

lemma accMerge_initAcc_right (a : SummaryAcc) : accMerge a initAcc = a := by
  simp [accMerge, initAcc]

lemma accMerge_assoc (a b c : SummaryAcc) :
    accMerge (accMerge a b) c = accMerge a (accMerge b c) := by
  simp [accMerge, List.append_assoc, Nat.add_assoc]

lemma processLine_toRaw (yesterday : String) (acc : SummaryAcc) (r : SampleRecord) :
    processLine yesterday acc (FileLine.ok r.toRaw)
      = accMerge acc (scanSpec yesterday [r]) := by
  by_cases hts : take10 r.resources.timestamp = yesterday
  · by_cases hfe : r.frontend.status = "UP" <;> by_cases hbe : r.backend.status = "UP" <;>
      simp [processLine, SampleRecord.toRaw, stepFe, stepBe, stepBoth, stepMemDisk,
        scanSpec, matching, accMerge, hts, hfe, hbe, List.filter_cons]
  · simp [processLine, SampleRecord.toRaw, scanSpec, matching, accMerge, hts,
      List.filter_cons]

lemma scanSpec_cons (yesterday : String) (r : SampleRecord) (recs : List SampleRecord) :
    scanSpec yesterday (r :: recs)
      = accMerge (scanSpec yesterday [r]) (scanSpec yesterday recs) := by
  by_cases hts : take10 r.resources.timestamp = yesterday <;>
    by_cases hfe : r.frontend.status = "UP" <;> by_cases hbe : r.backend.status = "UP" <;>
      simp [scanSpec, matching, accMerge, List.filter_cons, hts, hfe, hbe] <;> omega

lemma foldl_processLine_toRaw (yesterday : String) (recs : List SampleRecord)
    (acc : SummaryAcc) :
    List.foldl (processLine yesterday) acc (recs.map (fun r => FileLine.ok r.toRaw))
      = accMerge acc (scanSpec yesterday recs) := by
  induction recs generalizing acc with
  | nil => simp [scanSpec, matching, accMerge, initAcc]
  | cons r recs ih =>
    simp only [List.map_cons, List.foldl_cons]
    rw [processLine_toRaw, ih, accMerge_assoc, ← scanSpec_cons]

lemma foldl_processLine_filterMap (yesterday : String) (lines : List FileLine)
    (acc : SummaryAcc) :
    List.foldl (processLine yesterday) acc lines
      = List.foldl (processLine yesterday) acc
          ((lines.filterMap okSample).map FileLine.ok) := by
  induction lines generalizing acc with
  | nil => rfl
  | cons l rest ih =>
    cases l with
    | ok s => simp only [List.filterMap_cons, okSample, List.map_cons, List.foldl_cons]; exact ih _
    | bad raw => simpa only [List.filterMap_cons, okSample, List.foldl_cons] using ih acc

/-- C5: for every samples file whose parseable lines are exactly the serializations of
well-formed records `recs` (with arbitrary malformed lines interspersed anywhere), the
summary scan produces exactly the spec-side aggregates of the date-matching subset of
`recs`, in original append order; in particular the result is independent of the
malformed lines. -/
theorem spec2_C5 (yesterday : String) (lines : List FileLine) (recs : List SampleRecord)
    (h : lines.filterMap okSample = recs.map SampleRecord.toRaw) :
    scanSamples yesterday lines = scanSpec yesterday recs := by
  rw [scanSamples, foldl_processLine_filterMap, h, List.map_map]
  rw [show (FileLine.ok ∘ SampleRecord.toRaw) = fun r => FileLine.ok r.toRaw from rfl]
  rw [foldl_processLine_toRaw, accMerge_initAcc_left]

/-- Concrete record used by the C5 witness: matches the target date, both probes UP. -/
def c5Rec1 : SampleRecord :=
  { frontend := { status := "UP", latency_ms := 12 }
    backend := { status := "UP", latency_ms := 34 }
    resources := { timestamp := "2026-10-11T08:00:00+00:00"
                   mem_percent := 55
                   disk_percent := 66 } }

/-- Concrete record used by the C5 witness: dated one day later, frontend DOWN. -/
def c5Rec2 : SampleRecord :=
  { frontend := { status := "DOWN", latency_ms := 70 }
    backend := { status := "UP", latency_ms := 8 }
    resources := { timestamp := "2026-10-12T00:01:00+00:00"
                   mem_percent := 50
                   disk_percent := 60 } }

/-- Samples file for the C5 witness: the two records with malformed lines around them. -/
def c5Lines : List FileLine :=
  [FileLine.bad "not json", FileLine.ok c5Rec1.toRaw, FileLine.bad "truncated line",
    FileLine.ok c5Rec2.toRaw, FileLine.bad ""]

/-- Witness for C5 on a concrete two-record store with malformed lines interspersed. -/
theorem spec2_C5_witness :
    c5Lines.filterMap okSample = [c5Rec1, c5Rec2].map SampleRecord.toRaw ∧
    scanSamples "2026-10-11" c5Lines = scanSpec "2026-10-11" [c5Rec1, c5Rec2] :=
  ⟨by decide, spec2_C5 "2026-10-11" c5Lines [c5Rec1, c5Rec2] (by decide)⟩

/-- Model of `run_daily_summary` (lines 165-236): if the guard says this date was
already summarized, do nothing; otherwise scan the samples file; with zero samples
found, record the date and send nothing; otherwise send one summary message, record
the date and prune.  Returns the updated state, the number of `send_telegram` calls,
and whether pruning ran. -/
def run_daily_summary (state : AlertState) (lines : List FileLine) (yesterday : String) :
    AlertState × Nat × Bool :=
  if state.last_summary_date == yesterday then (state, 0, false)
  else if (scanSamples yesterday lines).total_samples == 0 then
    ({ state with last_summary_date := yesterday }, 0, false)
  else
    ({ state with last_summary_date := yesterday }, 1, true)

/-- C7: when the scan finds zero samples for the target date, the summary sends no
notification, still advances `last_summary_date` to the target date, and the date
guard then keeps the summary from re-running for that date on any later tick. -/
theorem spec2_C7 (state : AlertState) (lines : List FileLine) (yesterday : String)
    (hzero : (scanSamples yesterday lines).total_samples = 0) :
    (run_daily_summary state lines yesterday
      = if state.last_summary_date == yesterday then (state, 0, false)
        else ({ state with last_summary_date := yesterday }, 0, false)) ∧
    ((run_daily_summary state lines yesterday).1.last_summary_date
      = if state.last_summary_date == yesterday then state.last_summary_date
        else yesterday) ∧
    (∀ (st2 : AlertState) (lines2 : List FileLine), st2.last_summary_date = yesterday →
      run_daily_summary st2 lines2 yesterday = (st2, 0, false)) := by
  refine ⟨?_, ?_, fun st2 lines2 h2 => ?_⟩
  · by_cases h : state.last_summary_date = yesterday <;> simp [run_daily_summary, h, hzero]
  · by_cases h : state.last_summary_date = yesterday <;> simp [run_daily_summary, h, hzero]
  · simp [run_daily_summary, h2]

/-- Witness for C7 on an empty samples file and the default state. -/
theorem spec2_C7_witness :
    (scanSamples "2026-10-11" []).total_samples = 0 ∧
    ((run_daily_summary initState [] "2026-10-11"
      = if initState.last_summary_date == "2026-10-11" then (initState, 0, false)
        else ({ initState with last_summary_date := "2026-10-11" }, 0, false)) ∧
    ((run_daily_summary initState [] "2026-10-11").1.last_summary_date
      = if initState.last_summary_date == "2026-10-11" then initState.last_summary_date
        else "2026-10-11") ∧
    (∀ (st2 : AlertState) (lines2 : List FileLine), st2.last_summary_date = "2026-10-11" →
      run_daily_summary st2 lines2 "2026-10-11" = (st2, 0, false))) :=
  ⟨by decide, spec2_C7 initState [] "2026-10-11" (by decide)⟩

/-- Sample line for C10: date matches, both probes fully present, but
`resources.mem_percent` is missing. -/
def c10Raw : RawSample :=
  { frontend := some { status := some "UP", latency_ms := some 12 }
    backend := some { status := some "UP", latency_ms := some 34 }
    resources := some { timestamp := some "2026-10-11T00:00:00+00:00"
                        mem_percent := none
                        disk_percent := some 66 } }

/-- C10: on a line whose probes parse but whose `resources.mem_percent` is missing,
the scan has already incremented `total_samples`, the UP counters and both latency
series when the key access raises, so the memory and disk series end up with fewer
entries than `total_samples` — the per-line handling is not all-or-nothing. -/
theorem spec2_C10 :
    (processLine "2026-10-11" initAcc (FileLine.ok c10Raw)).total_samples = 1 ∧
    (processLine "2026-10-11" initAcc (FileLine.ok c10Raw)).fe_latencies = [12] ∧
    (processLine "2026-10-11" initAcc (FileLine.ok c10Raw)).be_latencies = [34] ∧
    (processLine "2026-10-11" initAcc (FileLine.ok c10Raw)).fe_up_count = 1 ∧
    (processLine "2026-10-11" initAcc (FileLine.ok c10Raw)).be_up_count = 1 ∧
    (processLine "2026-10-11" initAcc (FileLine.ok c10Raw)).both_up_count = 1 ∧
    (processLine "2026-10-11" initAcc (FileLine.ok c10Raw)).mem_percents = [] ∧
    (processLine "2026-10-11" initAcc (FileLine.ok c10Raw)).disk_percents = [] ∧
    (processLine "2026-10-11" initAcc (FileLine.ok c10Raw)).mem_percents.length
      < (processLine "2026-10-11" initAcc (FileLine.ok c10Raw)).total_samples := by
  decide

/-! Percentile aggregator (`calculate_percentile`, lines 155-163), over exact
rationals in place of Python floats: the function only adds, subtracts, multiplies
and divides by the constant 100, so exact arithmetic reproduces the computed value. -/

/-- Python `int()` truncation toward zero on a rational number. -/
def pyInt (q : ℚ) : ℤ := if 0 ≤ q then ⌊q⌋ else ⌈q⌉

/-- Model of `calculate_percentile` (lines 155-163): empty data returns 0; otherwise
sort ascending, take the fractional index `(n - 1) * p / 100`, truncate it with
`int()`, and linearly interpolate between the floor- and ceiling-indexed elements of
the sorted list when the ceiling index is in range, else return the floor-indexed
element. -/
def calculate_percentile (data : List ℚ) (p : ℚ) : ℚ :=
  if data = [] then 0
  else
    let s := data.insertionSort (· ≤ ·)
    let idx : ℚ := ((s.length : ℚ) - 1) * p / 100
    let fl : ℤ := pyInt idx
    let ce : ℤ := fl + 1
    if ce < (s.length : ℤ) then
      s.getD fl.toNat 0 + (s.getD ce.toNat 0 - s.getD fl.toNat 0) * (idx - (fl : ℚ))
    else
      s.getD fl.toNat 0

/-- Modelled from the spec's words (§4.2): sort ascending, compute the fractional
index `(n - 1) * p / 100`, and linearly interpolate between the floor and ceiling
indexed elements; if the ceiling index is out of range, return the floor element. -/
def percentileSpec (data : List ℚ) (p : ℚ) : ℚ :=
  if data = [] then 0
  else
    let s := data.insertionSort (· ≤ ·)
    let idx : ℚ := ((s.length : ℚ) - 1) * p / 100
    let lo : ℕ := (⌊idx⌋).toNat
    if lo + 1 < s.length then
      s.getD lo 0 + (s.getD (lo + 1) 0 - s.getD lo 0) * (idx - (⌊idx⌋ : ℚ))
    else
      s.getD lo 0

lemma sorted_getElem_le (s : List ℚ) (hs : s.Sorted (· ≤ ·)) (i j : ℕ)
    (hi : i < s.length) (hj : j < s.length) (hij : i ≤ j) : s[i] ≤ s[j] := by
  rcases eq_or_lt_of_le hij with rfl | hlt
  · exact le_refl _
  · exact List.pairwise_iff_getElem.mp hs i j hi hj hlt

lemma getElem_insertionSort_mem (data : List ℚ) (i : ℕ)
    (hi : i < (data.insertionSort (· ≤ ·)).length) :
    (data.insertionSort (· ≤ ·))[i] ∈ data :=
  (List.perm_insertionSort _ data).mem_iff.mp (List.getElem_mem hi)

lemma mem_getElem_insertionSort (data : List ℚ) (x : ℚ) (hx : x ∈ data) :
    ∃ (j : ℕ) (hj : j < (data.insertionSort (· ≤ ·)).length),
      (data.insertionSort (· ≤ ·))[j] = x := by
  have hx2 : x ∈ data.insertionSort (· ≤ ·) :=
    (List.perm_insertionSort _ data).mem_iff.mpr hx
  exact List.mem_iff_getElem.mp hx2

lemma insertionSort_length_pos (data : List ℚ) (hne : data ≠ []) :
    0 < (data.insertionSort (· ≤ ·)).length := by
  rw [List.length_insertionSort]
  exact List.length_pos.mpr hne

lemma insertionSort_getElem_zero_le (data : List ℚ) (x : ℚ) (hx : x ∈ data)
    (h0 : 0 < (data.insertionSort (· ≤ ·)).length) :
    (data.insertionSort (· ≤ ·))[0] ≤ x := by
  obtain ⟨j, hj, rfl⟩ := mem_getElem_insertionSort data x hx
  exact sorted_getElem_le _ (List.sorted_insertionSort _ data) 0 j h0 hj (Nat.zero_le j)

lemma le_insertionSort_getElem_last (data : List ℚ) (x : ℚ) (hx : x ∈ data)
    (h0 : 0 < (data.insertionSort (· ≤ ·)).length) :
    x ≤ (data.insertionSort (· ≤ ·))[(data.insertionSort (· ≤ ·)).length - 1] := by
  obtain ⟨j, hj, rfl⟩ := mem_getElem_insertionSort data x hx
  exact sorted_getElem_le _ (List.sorted_insertionSort _ data) j _ hj (by omega) (by omega)

lemma calculate_percentile_zero (data : List ℚ) (hne : data ≠ []) :
    calculate_percentile data 0 = (data.insertionSort (· ≤ ·)).getD 0 0 := by
  simp only [calculate_percentile, if_neg hne, mul_zero, zero_div]
  have hpy : pyInt 0 = 0 := by simp [pyInt]
  rw [hpy]
  split_ifs <;> simp

lemma floor_natCast_sub_one (n : ℕ) (h : 0 < n) : pyInt ((n : ℚ) - 1) = (n : ℤ) - 1 := by
  have h1 : (1 : ℚ) ≤ (n : ℚ) := by exact_mod_cast h
  have hcast : ((n : ℚ) - 1) = (((n : ℤ) - 1 : ℤ) : ℚ) := by push_cast; ring
  rw [pyInt, if_pos (by linarith), hcast, Int.floor_intCast]

lemma calculate_percentile_hundred (data : List ℚ) (hne : data ≠ []) :
    calculate_percentile data 100 =
      (data.insertionSort (· ≤ ·)).getD ((data.insertionSort (· ≤ ·)).length - 1) 0 := by
  simp only [calculate_percentile, if_neg hne]
  have hlen : 0 < (data.insertionSort (· ≤ ·)).length := insertionSort_length_pos data hne
  set n := (data.insertionSort (· ≤ ·)).length with hn
  have hidx : ((n : ℚ) - 1) * 100 / 100 = (n : ℚ) - 1 := by ring
  rw [hidx, floor_natCast_sub_one n hlen]
  rw [if_neg (by omega : ¬((n : ℤ) - 1 + 1 < (n : ℤ)))]
  congr 1
  omega

lemma calculate_percentile_eq_spec (data : List ℚ) (p : ℚ) (hne : data ≠ [])
    (hp : 0 ≤ p) : calculate_percentile data p = percentileSpec data p := by
  simp only [calculate_percentile, percentileSpec, if_neg hne]
  have hlen : 0 < (data.insertionSort (· ≤ ·)).length := insertionSort_length_pos data hne
  set n := (data.insertionSort (· ≤ ·)).length with hn
  set idx := ((n : ℚ) - 1) * p / 100 with hidx
  have hidx0 : 0 ≤ idx := by
    apply div_nonneg _ (by norm_num)
    apply mul_nonneg _ hp
    have h1 : (1 : ℚ) ≤ (n : ℚ) := by exact_mod_cast hlen
    linarith
  have hpy : pyInt idx = ⌊idx⌋ := if_pos hidx0
  rw [hpy]
  have hfl0 : 0 ≤ ⌊idx⌋ := Int.floor_nonneg.mpr hidx0
  have hce : (⌊idx⌋ + 1).toNat = ⌊idx⌋.toNat + 1 := by omega
  by_cases h : ⌊idx⌋ + 1 < (n : ℤ)
  · rw [if_pos h, if_pos (by omega : ⌊idx⌋.toNat + 1 < n), hce]
  · rw [if_neg h, if_neg (by omega : ¬(⌊idx⌋.toNat + 1 < n))]

lemma calc_percentile_concrete : calculate_percentile [10, 20, 30] 50 = 20 := by
  have hsort : ([10, 20, 30] : List ℚ).insertionSort (· ≤ ·) = [10, 20, 30] := by
    norm_num [List.insertionSort, List.orderedInsert]
  have hne : ([10, 20, 30] : List ℚ) ≠ [] := by simp
  rw [calculate_percentile, if_neg hne]
  rw [hsort]
  norm_num [pyInt]

/-- C6: on nonempty data and `p ∈ [0, 100]`, `calculate_percentile` computes the
spec's linearly-interpolated order statistic (`int()` truncation agrees with the
mathematical floor on the nonnegative fractional index); p0 is the minimum of the
data, p100 the maximum, and p50 of `[10, 20, 30]` is 20. -/
theorem spec2_C6 (data : List ℚ) (p : ℚ) (hne : data ≠ []) (h0 : 0 ≤ p)
    (h1 : p ≤ 100) :
    calculate_percentile data p = percentileSpec data p ∧
    (calculate_percentile data 0 ∈ data ∧ ∀ x ∈ data, calculate_percentile data 0 ≤ x) ∧
    (calculate_percentile data 100 ∈ data ∧ ∀ x ∈ data, x ≤ calculate_percentile data 100) ∧
    calculate_percentile [10, 20, 30] 50 = 20 := by
  have hlen : 0 < (data.insertionSort (· ≤ ·)).length := insertionSort_length_pos data hne
  have hz : calculate_percentile data 0 = (data.insertionSort (· ≤ ·))[0] := by
    rw [calculate_percentile_zero data hne, List.getD_eq_getElem _ _ hlen]
  have hh : calculate_percentile data 100 =
      (data.insertionSort (· ≤ ·))[(data.insertionSort (· ≤ ·)).length - 1] := by
    rw [calculate_percentile_hundred data hne, List.getD_eq_getElem _ _ (by omega)]
  refine ⟨calculate_percentile_eq_spec data p hne h0, ⟨?_, ?_⟩, ⟨?_, ?_⟩,
    calc_percentile_concrete⟩
  · rw [hz]; exact getElem_insertionSort_mem data 0 hlen
  · intro x hx; rw [hz]; exact insertionSort_getElem_zero_le data x hx hlen
  · rw [hh]; exact getElem_insertionSort_mem data _ (by omega)
  · intro x hx; rw [hh]; exact le_insertionSort_getElem_last data x hx hlen

/-- Witness for C6 on the concrete data `[10, 20, 30]` with `p = 50`. -/
theorem spec2_C6_witness :
    (([10, 20, 30] : List ℚ) ≠ [] ∧ (0 : ℚ) ≤ 50 ∧ (50 : ℚ) ≤ 100) ∧
    (calculate_percentile [10, 20, 30] 50 = percentileSpec [10, 20, 30] 50 ∧
    (calculate_percentile [10, 20, 30] 0 ∈ ([10, 20, 30] : List ℚ) ∧
      ∀ x ∈ ([10, 20, 30] : List ℚ), calculate_percentile [10, 20, 30] 0 ≤ x) ∧
    (calculate_percentile [10, 20, 30] 100 ∈ ([10, 20, 30] : List ℚ) ∧
      ∀ x ∈ ([10, 20, 30] : List ℚ), x ≤ calculate_percentile [10, 20, 30] 100) ∧
    calculate_percentile [10, 20, 30] 50 = 20) :=
  ⟨⟨by decide, by norm_num, by norm_num⟩,
    spec2_C6 [10, 20, 30] 50 (by decide) (by norm_num) (by norm_num)⟩

lemma calc_percentile_between (data : List ℚ) (p : ℚ) (hne : data ≠ []) (hp0 : 0 ≤ p)
    (hp1 : p ≤ 100) (h0len : 0 < (data.insertionSort (· ≤ ·)).length) :
    (data.insertionSort (· ≤ ·))[0] ≤ calculate_percentile data p ∧
      calculate_percentile data p ≤
        (data.insertionSort (· ≤ ·))[(data.insertionSort (· ≤ ·)).length - 1] := by
  have hs : (data.insertionSort (· ≤ ·)).Sorted (· ≤ ·) := List.sorted_insertionSort _ data
  simp only [calculate_percentile, if_neg hne]
  set n := (data.insertionSort (· ≤ ·)).length with hn
  set idx := ((n : ℚ) - 1) * p / 100 with hidx
  have h1n : (1 : ℚ) ≤ (n : ℚ) := by exact_mod_cast h0len
  have hidx0 : 0 ≤ idx := by
    apply div_nonneg _ (by norm_num)
    exact mul_nonneg (by linarith) hp0
  have hidxle : idx ≤ (n : ℚ) - 1 := by
    have hm := mul_le_mul_of_nonneg_left hp1 (by linarith : (0 : ℚ) ≤ (n : ℚ) - 1)
    rw [hidx, div_le_iff₀ (by norm_num : (0 : ℚ) < 100)]
    linarith
  have hpy : pyInt idx = ⌊idx⌋ := if_pos hidx0
  rw [hpy]
  have hfl0 : 0 ≤ ⌊idx⌋ := Int.floor_nonneg.mpr hidx0
  have hfl_le : ⌊idx⌋ ≤ (n : ℤ) - 1 := by
    have hmono := Int.floor_le_floor hidxle
    rwa [show ((n : ℚ) - 1) = (((n : ℤ) - 1 : ℤ) : ℚ) by push_cast; ring,
      Int.floor_intCast] at hmono
  have hflt : ⌊idx⌋.toNat < n := by omega
  have hfrac0 : 0 ≤ idx - (⌊idx⌋ : ℚ) := by have := Int.floor_le idx; linarith
  have hfrac1 : idx - (⌊idx⌋ : ℚ) ≤ 1 := by have := Int.lt_floor_add_one idx; linarith
  have hfirst : (data.insertionSort (· ≤ ·))[0] ≤ (data.insertionSort (· ≤ ·))[⌊idx⌋.toNat] :=
    sorted_getElem_le _ hs 0 _ h0len hflt (Nat.zero_le _)
  have hlast : (data.insertionSort (· ≤ ·))[⌊idx⌋.toNat] ≤ (data.insertionSort (· ≤ ·))[n - 1] :=
    sorted_getElem_le _ hs _ _ hflt (by omega) (by omega)
  have hce : (⌊idx⌋ + 1).toNat = ⌊idx⌋.toNat + 1 := by omega
  by_cases h : ⌊idx⌋ + 1 < (n : ℤ)
  · rw [if_pos h, hce]
    have hct : ⌊idx⌋.toNat + 1 < n := by omega
    rw [List.getD_eq_getElem _ _ hflt, List.getD_eq_getElem _ _ hct]
    have hab : (data.insertionSort (· ≤ ·))[⌊idx⌋.toNat]
        ≤ (data.insertionSort (· ≤ ·))[⌊idx⌋.toNat + 1] :=
      sorted_getElem_le _ hs _ _ hflt hct (by omega)
    have hlast2 : (data.insertionSort (· ≤ ·))[⌊idx⌋.toNat + 1]
        ≤ (data.insertionSort (· ≤ ·))[n - 1] :=
      sorted_getElem_le _ hs _ _ hct (by omega) (by omega)
    have hmul0 := mul_nonneg (sub_nonneg.mpr hab) hfrac0
    have hmul1 := mul_le_mul_of_nonneg_left hfrac1 (sub_nonneg.mpr hab)
    constructor
    · linarith
    · linarith
  · rw [if_neg h, List.getD_eq_getElem _ _ hflt]
    exact ⟨hfirst, hlast⟩

/-- C9: on nonempty data and `p ∈ [0, 100]`, the value of `calculate_percentile`
lies between the minimum and the maximum element of the data, inclusive. -/
theorem spec2_C9 (data : List ℚ) (p : ℚ) (hne : data ≠ []) (h0 : 0 ≤ p)
    (h1 : p ≤ 100) :
    ∃ lo hi : ℚ, lo ∈ data ∧ hi ∈ data ∧ (∀ x ∈ data, lo ≤ x) ∧ (∀ x ∈ data, x ≤ hi) ∧
      lo ≤ calculate_percentile data p ∧ calculate_percentile data p ≤ hi := by
  have hlen : 0 < (data.insertionSort (· ≤ ·)).length := insertionSort_length_pos data hne
  obtain ⟨hlo, hhi⟩ := calc_percentile_between data p hne h0 h1 hlen
  exact ⟨(data.insertionSort (· ≤ ·))[0],
    (data.insertionSort (· ≤ ·))[(data.insertionSort (· ≤ ·)).length - 1],
    getElem_insertionSort_mem data 0 hlen, getElem_insertionSort_mem data _ (by omega),
    fun x hx => insertionSort_getElem_zero_le data x hx hlen,
    fun x hx => le_insertionSort_getElem_last data x hx hlen, hlo, hhi⟩

/-- Witness for C9 on the concrete data `[10, 20, 30]` with `p = 50`. -/
theorem spec2_C9_witness :
    (([10, 20, 30] : List ℚ) ≠ [] ∧ (0 : ℚ) ≤ 50 ∧ (50 : ℚ) ≤ 100) ∧
    (∃ lo hi : ℚ, lo ∈ ([10, 20, 30] : List ℚ) ∧ hi ∈ ([10, 20, 30] : List ℚ) ∧
      (∀ x ∈ ([10, 20, 30] : List ℚ), lo ≤ x) ∧ (∀ x ∈ ([10, 20, 30] : List ℚ), x ≤ hi) ∧
      lo ≤ calculate_percentile [10, 20, 30] 50 ∧
      calculate_percentile [10, 20, 30] 50 ≤ hi) :=
  ⟨⟨by decide, by norm_num, by norm_num⟩,
    spec2_C9 [10, 20, 30] 50 (by decide) (by norm_num) (by norm_num)⟩

/-! Persistence of the alert state (`save_state`, lines 151-153).  The code runs
`open(STATE_FILE, "w")` — which truncates the file in place — and then
`json.dump(state, f)`.  We model the file-system operations the function performs
and their effect on a simple path-to-contents map, so the write discipline (temp
file + rename, fsync, in-place truncate) is visible in the trace. -/

/-- File-system operations relevant to persisting state. -/
inductive FsOp where
  | openTrunc (path : String)
  | writeData (path : String) (data : String)
  | renameTo (src : String) (dst : String)
  | fsync (path : String)
deriving DecidableEq

/-- Path of the alert state file. -/
def STATE_FILE : String := "/var/lib/goals/monitor/state.json"

/-- Trace of file-system operations performed by `save_state` (lines 151-153):
`open(STATE_FILE, "w")` truncates the state file in place, then the serialized
state is written to it.  No temporary file, no rename, no fsync. -/
def save_state_trace (payload : String) : List FsOp :=
  [FsOp.openTrunc STATE_FILE, FsOp.writeData STATE_FILE payload]

/-- Contents of a path in a file system modelled as an association list. -/
def fsRead (fs : List (String × String)) (path : String) : Option String :=
  (fs.find? (fun e => e.1 == path)).map Prod.snd

/-- Replace the contents of a path. -/
def fsWrite (fs : List (String × String)) (path : String) (v : String) :
    List (String × String) :=
  (path, v) :: fs.filter (fun e => !(e.1 == path))

/-- Effect of one file-system operation. -/
def applyFsOp (fs : List (String × String)) : FsOp → List (String × String)
  | FsOp.openTrunc p => fsWrite fs p ""
  | FsOp.writeData p d => fsWrite fs p (((fsRead fs p).getD "") ++ d)
  | FsOp.renameTo src dst =>
    match fsRead fs src with
    | none => fs
    | some v => fsWrite (fs.filter (fun e => !(e.1 == src))) dst v
  | FsOp.fsync _ => fs

/-- Effect of a trace of file-system operations. -/
def runFs (fs : List (String × String)) (ops : List FsOp) : List (String × String) :=
  ops.foldl applyFsOp fs

/-- An operation that truncates or writes the target path directly. -/
def touchesDirectly (target : String) : FsOp → Bool
  | FsOp.openTrunc p => p == target
  | FsOp.writeData p _ => p == target
  | _ => false

/-- An operation that installs the target path by rename. -/
def installsByRename (target : String) : FsOp → Bool
  | FsOp.renameTo _ dst => dst == target
  | _ => false

/-- An fsync operation. -/
def isFsyncOp : FsOp → Bool
  | FsOp.fsync _ => true
  | _ => false

/-- The all-or-nothing persistence discipline the claim describes: either the trace
never truncates or writes the target directly and installs it with a rename of a
temporary location, or some fsync happens before the first direct truncate/write of
the target. -/
def atomicPersist (ops : List FsOp) (target : String) : Bool :=
  (ops.all (fun op => !(touchesDirectly target op)) && ops.any (installsByRename target))
    || (ops.takeWhile (fun op => !(touchesDirectly target op))).any isFsyncOp

/-- Counterexample to C4 as stated: the `save_state` trace neither writes a temporary
location and renames it over the state file, nor fsyncs before overwriting — and
after its first operation alone (a crash point) the state file is observable empty,
which is neither the old contents nor the new payload: the state file is observable
in a partially written form. -/
theorem spec2_C4_counterexample :
    atomicPersist (save_state_trace "new") STATE_FILE = false ∧
    fsRead (runFs [(STATE_FILE, "old")] ((save_state_trace "new").take 1)) STATE_FILE
      = some "" ∧
    ("" : String) ≠ "old" ∧ ("" : String) ≠ "new" := by
  refine ⟨by decide, by decide, by decide, by decide⟩

/-- C4 (amended): `save_state` rewrites the state file fully in place — after the
trace runs, the file holds exactly the new payload, whatever it held before — but the
persist operation is not all-or-nothing: it truncates the state file and then writes
into it, with no temporary file, no rename, and no fsync, so after the truncating
first operation the state file is observable holding the empty string instead of
either complete state. -/
theorem spec2_C4 (payload : String) (fs : List (String × String)) :
    fsRead (runFs fs (save_state_trace payload)) STATE_FILE = some payload ∧
    atomicPersist (save_state_trace payload) STATE_FILE = false ∧
    ((save_state_trace payload).take 1 = [FsOp.openTrunc STATE_FILE] ∧
      fsRead (runFs fs ((save_state_trace payload).take 1)) STATE_FILE = some "") ∧
    (∀ op ∈ save_state_trace payload,
      installsByRename STATE_FILE op = false ∧ isFsyncOp op = false) := by
  refine ⟨?_, ?_, ⟨rfl, ?_⟩, ?_⟩
  · simp [save_state_trace, runFs, applyFsOp, fsWrite, fsRead, List.find?]
  · simp [atomicPersist, save_state_trace, touchesDirectly, isFsyncOp,
      installsByRename, List.takeWhile]
  · simp [save_state_trace, runFs, applyFsOp, fsWrite, fsRead, List.find?]
  · intro op hop
    simp only [save_state_trace, List.mem_cons, List.mem_singleton] at hop
    rcases hop with rfl | rfl | h
    · exact ⟨rfl, rfl⟩
    · exact ⟨rfl, rfl⟩
    · cases h

/-- Witness for C4 (amended) at a concrete payload and starting file system. -/
theorem spec2_C4_witness :
    fsRead (runFs [(STATE_FILE, "old")] (save_state_trace "new")) STATE_FILE
      = some "new" ∧
    atomicPersist (save_state_trace "new") STATE_FILE = false ∧
    (((save_state_trace "new").take 1 = [FsOp.openTrunc STATE_FILE]) ∧
      fsRead (runFs [(STATE_FILE, "old")] ((save_state_trace "new").take 1)) STATE_FILE
        = some "") ∧
    (∀ op ∈ save_state_trace "new",
      installsByRename STATE_FILE op = false ∧ isFsyncOp op = false) := by
  have h := spec2_C4 "new" [(STATE_FILE, "old")]
  exact ⟨h.1, h.2.1, ⟨h.2.2.1.1, h.2.2.1.2⟩, h.2.2.2⟩

end GoalsMonitor
